import Mathlib

/-!
# Verification of the monitor-cache core of pva2pva (`src/p2pApp/moncache.cpp`)

Shallow embedding of the two cooperating entities of the subscription
multiplexer:

* `MonitorCacheEntry` — one per upstream subscription; holds the negotiated
  type descriptor, the cached upstream-start outcome, the last-value snapshot
  and diagnostic counters, and fans upstream notifications out to the
  attached `MonitorUser`s.
* `MonitorUser` — one per downstream consumer; holds the free-buffer queue
  (`empty`), the filled-update queue (`filled`), the set of buffers lent to
  the consumer (`inuse`), the running flag and per-handle counters.

Pointers are modelled by identities (`Nat`): a `shared_ptr` assignment copies
the identity, so two collections alias an object exactly when they hold the
same identity.  `std::tr1::weak_ptr` lock is modelled by a `Bool` liveness
flag (`reqAlive`).  Bitsets are modelled by their value as a `Nat` bitmask.
-/

namespace MonCache

/-- `epics::pvData::Status::StatusType`. -/
inductive StatusType where
  | OK
  | WARNING
  | ERROR
  | FATAL
deriving DecidableEq, Repr

/-- `epics::pvData::Status`: a status type plus a message. -/
structure Status where
  stype : StatusType
  message : String
deriving DecidableEq, Repr

/-- `Status::isSuccess()`: OK or WARNING count as success. -/
def Status.isSuccess (s : Status) : Bool :=
  s.stype = StatusType.OK || s.stype = StatusType.WARNING

/-- `pvd::Status()` — the default all-OK status returned by a successful
`MonitorUser::start()`. -/
def Status.ok : Status := ⟨StatusType.OK, ""⟩

/-- The FATAL "already dead" status returned by `MonitorUser::start()` when
the requester weak reference has expired. -/
def Status.alreadyDead : Status := ⟨StatusType.FATAL, "already dead"⟩

/-- `epics::pvData::MonitorElement`: a reusable update buffer.  `eid` is the
identity of the `MonitorElement` allocation itself; `pvStructurePtr` is the
identity of the payload `PVStructure` it currently references (`none` for a
null pointer); the two bitsets are modelled by value. -/
structure MonitorElement where
  eid : Nat
  pvStructurePtr : Option Nat
  changedBitSet : Nat
  overrunBitSet : Nat
deriving DecidableEq, Repr

/-- Modelled from the spec: the member declarations of `MonitorUser` live in
`chancache.h`, which is not among the sources — only their use in
`moncache.cpp` is.  Fields follow spec §3 "Client Handle": `req` is a weak
reference to the downstream requester ("if this has been released, the
handle is considered dead"), modelled by the liveness flag `reqAlive`;
`empty`/`filled` are deques (front = head of the list), `inuse` a
`std::set` keyed by pointer identity, and the counters are the per-handle
diagnostics bumped by `moncache.cpp`. -/
structure MonitorUser where
  reqAlive : Bool
  running : Bool
  empty : List MonitorElement
  filled : List MonitorElement
  inuse : List MonitorElement
  nevents : Nat
  ndropped : Nat
  nwakeups : Nat
deriving DecidableEq, Repr

/-- Modelled from the spec: the member declarations of `MonitorCacheEntry`
also live in the missing `chancache.h`; the fields used by the monitor logic
follow spec §3 "Cache Entry" and their use in `moncache.cpp`: the negotiated
type descriptor (a `StructureConstPtr`, by identity), the cached
`startresult`, the `lastval` payload snapshot (by identity) and the
diagnostic counters. -/
structure MonitorCacheEntry where
  typedesc : Option Nat
  startresult : Status
  lastval : Option Nat
  nwakeups : Nat
  nevents : Nat
deriving DecidableEq, Repr

namespace MonitorUser

/-- The per-user body of the fan-out loop in `MonitorCacheEntry::monitorEvent`
(moncache.cpp lines 107–135): if the user is not running or has no free
buffer, increment `ndropped` and skip; otherwise pop the front free buffer,
assign the update's payload pointer and bitset pointers into it, push it at
the back of `filled`, and report whether `filled` was empty immediately
before the push (in which case `nwakeups` is incremented and the requester's
`monitorEvent` callback is invoked).  Returns the updated user and the
`notify` flag. -/
def deliver (update : MonitorElement) (u : MonitorUser) : MonitorUser × Bool :=
  if !u.running || u.empty.isEmpty then
    ({ u with ndropped := u.ndropped + 1 }, false)
  else
    match u.empty with
    | [] => (u, false)
    | elem :: rest =>
      let notify := u.filled.isEmpty
      let elem' : MonitorElement :=
        { elem with
            pvStructurePtr := update.pvStructurePtr
            overrunBitSet := update.overrunBitSet
            changedBitSet := update.changedBitSet }
      ({ u with
          empty := rest
          filled := u.filled ++ [elem']
          nevents := u.nevents + 1
          nwakeups := if notify then u.nwakeups + 1 else u.nwakeups },
       notify)

/-- `MonitorUser::poll` (lines 248–260): if `filled` is non-empty, pop its
front element, insert it into the `inuse` set (a `std::set` keyed by pointer
identity: inserting an already-present element is a no-op) and return it;
otherwise return null. -/
def poll (u : MonitorUser) : MonitorUser × Option MonitorElement :=
  match u.filled with
  | [] => (u, none)
  | ret :: rest =>
    ({ u with
        filled := rest
        inuse := if u.inuse.any (fun x => x.eid = ret.eid) then u.inuse
                 else ret :: u.inuse },
     some ret)

/-- `MonitorUser::release` (lines 262–277): look the element up in the
`inuse` set by pointer identity; if found, push it at the back of the free
queue and erase it from `inuse`; otherwise throw `std::invalid_argument`
("Can't release MonitorElement not in use") leaving the state unchanged.
The boolean is `true` on success, `false` when the exception is thrown. -/
def release (monitorElement : MonitorElement) (u : MonitorUser) :
    MonitorUser × Bool :=
  if u.inuse.any (fun x => x.eid = monitorElement.eid) then
    ({ u with
        empty := u.empty ++ [monitorElement]
        inuse := u.inuse.eraseP (fun x => x.eid = monitorElement.eid) },
     true)
  else
    (u, false)

/-- `MonitorUser::stop` (lines 240–246): clear the running flag. -/
def stop (u : MonitorUser) : MonitorUser :=
  { u with running := false }

/-- `MonitorUser::destroy` (lines 182–189): clear the running flag. -/
def destroy (u : MonitorUser) : MonitorUser :=
  { u with running := false }

/-- A fresh `MonitorElement` as allocated in `MonitorUser::start`:
`new MonitorElement(fact->createPVStructure(typedesc))` — a fresh element
holding a fresh payload structure and empty bitsets.  `i` is the fresh
identity used for both allocations. -/
def freshElem (i : Nat) : MonitorElement :=
  { eid := i, pvStructurePtr := some i, changedBitSet := 0, overrunBitSet := 0 }

/-- `MonitorUser::start` (lines 191–238).  Locks the requester weak
reference; if dead, returns FATAL "already dead".  If the entry's cached
`startresult` is not success, returns it without touching the queues.
Otherwise resizes the free queue to 4 and fills all four slots with freshly
allocated elements (discarding whatever the free queue held), then, if the
entry has a `lastval` snapshot, moves the front free buffer into `filled`
with the snapshot payload and bit 0 of its changed set marked, and schedules
one requester wakeup (`doEvt`).  Sets `running` last and returns OK.
`base` supplies the four fresh allocation identities `base..base+3`.
Returns (updated user, returned status, doEvt). -/
def start (e : MonitorCacheEntry) (u : MonitorUser) (base : Nat) :
    MonitorUser × Status × Bool :=
  if !u.reqAlive then
    (u, Status.alreadyDead, false)
  else if !e.startresult.isSuccess then
    (u, e.startresult, false)
  else
    let newEmpty := (List.range 4).map (fun i => freshElem (base + i))
    match e.lastval with
    | none =>
      ({ u with empty := newEmpty, running := true }, Status.ok, false)
    | some lv =>
      let elem := freshElem base
      let elem' : MonitorElement :=
        { elem with pvStructurePtr := some lv, changedBitSet := elem.changedBitSet ||| 1 }
      ({ u with
          empty := newEmpty.tail
          filled := u.filled ++ [elem']
          running := true },
       Status.ok, true)

end MonitorUser

namespace MonitorCacheEntry

/-- The state reached by `MonitorCacheEntry::monitorConnect`
(lines 33–54) on its shared fields: the type descriptor is stored
unconditionally; if the given status is success, `startresult` becomes the
outcome of `monitor->start()` (passed here as `upstreamStart`), otherwise the
given failure status is stored directly. -/
def monitorConnect (status : Status) (upstreamStart : Status)
    (structure' : Nat) (e : MonitorCacheEntry) : MonitorCacheEntry :=
  { e with
      typedesc := some structure'
      startresult := if status.isSuccess then upstreamStart else status }

/-- The notification fan-out of `monitorConnect` (lines 61–70): for each
snapshotted user, lock the requester weak reference; if alive, invoke
`monitorConnect(startresult, user, structure)` on it (`some` of the delivered
outcome); if dead, log "Dead requester" and skip (`none`).  One slot per
user: the loop is non-fatal and processes every user. -/
def connectNotifications (users : List MonitorUser) (result : Status) :
    List (Option Status) :=
  users.map (fun u => if u.reqAlive then some result else none)

end MonitorCacheEntry

/-- Joint state of a cache entry and its snapshot of interested users,
as acted on by `MonitorCacheEntry::monitorEvent`. -/
structure EntryState where
  entry : MonitorCacheEntry
  users : List MonitorUser
deriving DecidableEq, Repr

/-- One iteration of the `while((update=monitor->poll()))` loop of
`MonitorCacheEntry::monitorEvent` (lines 97–139): store the update's payload
pointer in `lastval`, bump `nevents`, then run the per-user delivery step on
every interested user. -/
def processUpdate (s : EntryState) (update : MonitorElement) : EntryState :=
  { entry := { s.entry with
      lastval := update.pvStructurePtr
      nevents := s.entry.nevents + 1 }
    users := s.users.map (fun u => (MonitorUser.deliver update u).1) }

/-- `MonitorCacheEntry::monitorEvent` (lines 77–140): bump the entry's
`nwakeups` counter, then drain the upstream monitor — `updates` is the
sequence of elements `monitor->poll()` yields before returning null — running
one `processUpdate` iteration per update. -/
def monitorEvent (s : EntryState) (updates : List MonitorElement) : EntryState :=
  updates.foldl processUpdate
    { s with entry := { s.entry with nwakeups := s.entry.nwakeups + 1 } }

/-- The consumer/producer operations that act on a single `MonitorUser` after
its pool has been initialized: the per-handle delivery step of
`monitorEvent`, `poll`, `release`, `stop` and `destroy`. -/
inductive Op where
  | deliver : MonitorElement → Op
  | poll : Op
  | release : MonitorElement → Op
  | stop : Op
  | destroy : Op
deriving DecidableEq, Repr

/-- Apply one operation to a user, discarding the returned value. -/
def applyOp (u : MonitorUser) : Op → MonitorUser
  | Op.deliver upd => (MonitorUser.deliver upd u).1
  | Op.poll => (MonitorUser.poll u).1
  | Op.release e => (MonitorUser.release e u).1
  | Op.stop => MonitorUser.stop u
  | Op.destroy => MonitorUser.destroy u

/-- Run a sequence of operations on a user. -/
def runOps (u : MonitorUser) (ops : List Op) : MonitorUser :=
  ops.foldl applyOp u

/-- The whole buffer pool of a handle: free queue, filled queue and in-use
set together. -/
def pool (u : MonitorUser) : List MonitorElement :=
  u.empty ++ u.filled ++ u.inuse

/-- The identities of the buffers in the pool. -/
def poolIds (u : MonitorUser) : List Nat :=
  (pool u).map MonitorElement.eid

/-- A concrete successfully connected entry with a last-value snapshot. -/
def entryOkLast : MonitorCacheEntry :=
  { typedesc := some 100, startresult := Status.ok, lastval := some 42
    nwakeups := 0, nevents := 0 }

/-- A concrete successfully connected entry with no last value yet. -/
def entryOkNoLast : MonitorCacheEntry :=
  { typedesc := some 100, startresult := Status.ok, lastval := none
    nwakeups := 0, nevents := 0 }

/-- A concrete pristine handle, as constructed by `MonitorUser::MonitorUser`. -/
def pristineUser : MonitorUser :=
  { reqAlive := true, running := false, empty := [], filled := [], inuse := []
    nevents := 0, ndropped := 0, nwakeups := 0 }

/-- A concrete upstream update. -/
def updA : MonitorElement :=
  { eid := 900, pvStructurePtr := some 77, changedBitSet := 3, overrunBitSet := 0 }

/-- The payload an update buffer carries: the payload structure reference and
the two bitsets — exactly the three fields the delivery step copies from the
upstream update into the handle's buffer. -/
def payloadOf (e : MonitorElement) : Option Nat × Nat × Nat :=
  (e.pvStructurePtr, e.changedBitSet, e.overrunBitSet)

/-- A user together with the history of its interaction: `polled` is the
sequence of payloads `poll` has returned (in call order) and `accepted` the
sequence of payloads of the upstream updates the delivery step accepted
(in upstream production order). -/
structure Trace where
  u : MonitorUser
  polled : List (Option Nat × Nat × Nat)
  accepted : List (Option Nat × Nat × Nat)
deriving DecidableEq, Repr

/-- One operation on an instrumented trace: the underlying user steps as in
the code, and the bookkeeping lists record what was accepted and what `poll`
handed out. -/
def stepT (t : Trace) : Op → Trace
  | Op.deliver upd =>
    { u := (MonitorUser.deliver upd t.u).1
      polled := t.polled
      accepted :=
        if t.u.running && !t.u.empty.isEmpty then t.accepted ++ [payloadOf upd]
        else t.accepted }
  | Op.poll =>
    { u := (MonitorUser.poll t.u).1
      polled :=
        match (MonitorUser.poll t.u).2 with
        | none => t.polled
        | some e => t.polled ++ [payloadOf e]
      accepted := t.accepted }
  | Op.release e => { t with u := (MonitorUser.release e t.u).1 }
  | Op.stop => { t with u := MonitorUser.stop t.u }
  | Op.destroy => { t with u := MonitorUser.destroy t.u }

/-- Run a sequence of operations on an instrumented trace. -/
def runT (t : Trace) (ops : List Op) : Trace :=
  ops.foldl stepT t

/-- The FIFO invariant: what `poll` already returned, followed by what still
sits in the filled queue, is exactly the accepted-update sequence. -/
def FifoInv (t : Trace) : Prop :=
  t.polled ++ t.u.filled.map payloadOf = t.accepted

/-- A second concrete upstream update. -/
def updB : MonitorElement :=
  { eid := 901, pvStructurePtr := some 78, changedBitSet := 1, overrunBitSet := 1 }

/-- Further concrete upstream updates for the C4 witness. -/
def updC : MonitorElement :=
  { eid := 902, pvStructurePtr := some 79, changedBitSet := 1, overrunBitSet := 0 }

def updD : MonitorElement :=
  { eid := 903, pvStructurePtr := some 80, changedBitSet := 2, overrunBitSet := 0 }

def updE : MonitorElement :=
  { eid := 904, pvStructurePtr := some 81, changedBitSet := 2, overrunBitSet := 2 }

def updF : MonitorElement :=
  { eid := 905, pvStructurePtr := some 82, changedBitSet := 4, overrunBitSet := 0 }

/-- Six concrete updates, two more than the pool size. -/
def sixUpdates : List MonitorElement := [updA, updB, updC, updD, updE, updF]

/-- Whether executing `op` from user state `u` invokes the requester's
wakeup callback (`req->monitorEvent`): among the per-user operations only
the delivery step of `monitorEvent` sends a wakeup, and it does so exactly
when its `notify` flag is set. -/
def firesWakeup (u : MonitorUser) : Op → Bool
  | Op.deliver upd => (MonitorUser.deliver upd u).2
  | _ => false

/-- A concrete started handle used in witnesses. -/
def demoUser1 : MonitorUser := (MonitorUser.start entryOkNoLast pristineUser 0).1

/-- A concrete entry state with one started handle. -/
def demoState : EntryState := ⟨entryOkNoLast, [demoUser1]⟩

/-- A concrete handle holding one free, one filled and one lent-out buffer. -/
def userWithInuse : MonitorUser :=
  { reqAlive := true, running := true
    empty := [MonitorUser.freshElem 1], filled := [MonitorUser.freshElem 2]
    inuse := [MonitorUser.freshElem 3]
    nevents := 0, ndropped := 0, nwakeups := 0 }

/-- A running handle with a free buffer whose downstream requester weak
reference has already been released. -/
def deadRunningUser : MonitorUser :=
  { reqAlive := false, running := true
    empty := [MonitorUser.freshElem 0], filled := [], inuse := []
    nevents := 0, ndropped := 0, nwakeups := 0 }

/-- A concrete failed connection status. -/
def errConn : Status := ⟨StatusType.ERROR, "connection failed"⟩

theorem poolIds_deliver (upd : MonitorElement) (u : MonitorUser) :
    List.Perm (poolIds (MonitorUser.deliver upd u).1) (poolIds u) := by
  rcases h : u.empty with _ | ⟨elem, rest⟩
  · simp [MonitorUser.deliver, h, poolIds, pool]
  · by_cases hr : u.running
    · simp only [MonitorUser.deliver, h, hr]
      simp [poolIds, pool, h, List.perm_iff_count, List.count_append, List.count_cons]
      intro a
      omega
    · simp [MonitorUser.deliver, h, hr, poolIds, pool]

theorem poolIds_stop (u : MonitorUser) :
    poolIds (MonitorUser.stop u) = poolIds u := rfl

theorem poolIds_destroy (u : MonitorUser) :
    poolIds (MonitorUser.destroy u) = poolIds u := rfl

theorem poolIds_poll (u : MonitorUser) (h : (poolIds u).Nodup) :
    List.Perm (poolIds (MonitorUser.poll u).1) (poolIds u) := by
  rcases hf : u.filled with _ | ⟨ret, rest⟩
  · simp [MonitorUser.poll, hf]
  · have hnotin : u.inuse.any (fun x => x.eid = ret.eid) = false := by
      rw [List.any_eq_false]
      intro x hx
      simp only [decide_eq_true_eq]
      intro heq
      rw [poolIds, pool, hf] at h
      have h1 : ret.eid ∈ (u.filled.map MonitorElement.eid) := by
        rw [hf]; simp
      have h2 : ret.eid ∈ (u.inuse.map MonitorElement.eid) := by
        exact List.mem_map.2 ⟨x, hx, heq⟩
      rw [List.map_append, List.map_append] at h
      rcases List.nodup_append.1 h with ⟨_, _, hdisj⟩
      exact hdisj (by simp) h2
    simp only [MonitorUser.poll, hf, hnotin]
    simp [poolIds, pool, List.perm_iff_count, List.count_append, List.count_cons, hf]
    intro a
    omega

theorem poolIds_release (e : MonitorElement) (u : MonitorUser) :
    List.Perm (poolIds (MonitorUser.release e u).1) (poolIds u) := by
  by_cases hmem : u.inuse.any (fun x => x.eid = e.eid)
  · rcases List.any_eq_true.1 hmem with ⟨x, hx, hpx⟩
    rcases List.exists_of_eraseP (p := fun x => decide (x.eid = e.eid)) hx hpx with ⟨x', l₁, l₂, hnl, hpx', hdecomp, herase⟩
    simp only [MonitorUser.release, hmem, if_pos]
    rw [poolIds, pool, herase, poolIds, pool, hdecomp]
    have hxe : x'.eid = e.eid := by simpa using hpx'
    simp [List.perm_iff_count, List.count_append, List.count_cons, hxe]
    intro a
    omega
  · simp [MonitorUser.release, hmem]

theorem poolIds_applyOp (u : MonitorUser) (op : Op) (h : (poolIds u).Nodup) :
    List.Perm (poolIds (applyOp u op)) (poolIds u) := by
  cases op with
  | deliver upd => exact poolIds_deliver upd u
  | poll => exact poolIds_poll u h
  | release e => exact poolIds_release e u
  | stop => rw [applyOp, poolIds_stop]
  | destroy => rw [applyOp, poolIds_destroy]

theorem poolIds_runOps (ops : List Op) (u : MonitorUser) (h : (poolIds u).Nodup) :
    List.Perm (poolIds (runOps u ops)) (poolIds u) := by
  induction ops generalizing u with
  | nil => exact List.Perm.refl _
  | cons op rest ih =>
    have h1 := poolIds_applyOp u op h
    have h2 : (poolIds (applyOp u op)).Nodup := h1.nodup_iff.2 h
    exact List.Perm.trans (ih (applyOp u op) h2) h1

/-- After a successful `start()` on a pristine handle, the pool holds exactly
the four freshly allocated buffers. -/
theorem poolIds_start (e : MonitorCacheEntry) (u : MonitorUser) (base : Nat)
    (halive : u.reqAlive = true) (hsr : e.startresult.isSuccess = true)
    (hf : u.filled = []) (hi : u.inuse = []) :
    List.Perm (poolIds (MonitorUser.start e u base).1)
      [base, base + 1, base + 2, base + 3] := by
  have hr4 : List.range 4 = [0, 1, 2, 3] := by decide
  cases hl : e.lastval with
  | none =>
    simp [MonitorUser.start, halive, hsr, hl, hf, hi, poolIds, pool,
      MonitorUser.freshElem, hr4]
  | some lv =>
    simp [MonitorUser.start, halive, hsr, hl, hf, hi, poolIds, pool,
      MonitorUser.freshElem, hr4]
    simp [List.perm_iff_count, List.count_cons]
    intro a
    omega

/-- C1.  For a handle whose pool was initialized by a successful `start()`,
every sequence of deliver/poll/release/stop/destroy operations only permutes
the buffer identities between the free queue, the filled queue and the
in-use set: the three collections stay pairwise disjoint and their sizes
always sum to the fixed pool size 4; no buffer is created or destroyed. -/
theorem C1_pool_invariant (e : MonitorCacheEntry) (u : MonitorUser) (base : Nat)
    (halive : u.reqAlive = true) (hsr : e.startresult.isSuccess = true)
    (hf : u.filled = []) (hi : u.inuse = []) (ops : List Op) :
    List.Perm (poolIds (runOps (MonitorUser.start e u base).1 ops))
        (poolIds (MonitorUser.start e u base).1) ∧
    (poolIds (runOps (MonitorUser.start e u base).1 ops)).Nodup ∧
    (runOps (MonitorUser.start e u base).1 ops).empty.length +
      (runOps (MonitorUser.start e u base).1 ops).filled.length +
      (runOps (MonitorUser.start e u base).1 ops).inuse.length = 4 := by
  have hstart := poolIds_start e u base halive hsr hf hi
  have hnodup0 : (poolIds (MonitorUser.start e u base).1).Nodup := by
    refine hstart.nodup_iff.2 ?_
    simp
  have hperm := poolIds_runOps ops (MonitorUser.start e u base).1 hnodup0
  refine ⟨hperm, hperm.nodup_iff.2 hnodup0, ?_⟩
  have hlen : (poolIds (runOps (MonitorUser.start e u base).1 ops)).length = 4 := by
    rw [hperm.length_eq, hstart.length_eq]
    rfl
  simp [poolIds, pool] at hlen
  omega

/-- Witness for C1 at a concrete entry, handle and operation sequence. -/
theorem C1_pool_invariant_witness :
    List.Perm
        (poolIds (runOps (MonitorUser.start entryOkLast pristineUser 0).1
          [Op.deliver updA, Op.poll, Op.stop]))
        (poolIds (MonitorUser.start entryOkLast pristineUser 0).1) ∧
    (poolIds (runOps (MonitorUser.start entryOkLast pristineUser 0).1
        [Op.deliver updA, Op.poll, Op.stop])).Nodup ∧
    (runOps (MonitorUser.start entryOkLast pristineUser 0).1
        [Op.deliver updA, Op.poll, Op.stop]).empty.length +
      (runOps (MonitorUser.start entryOkLast pristineUser 0).1
        [Op.deliver updA, Op.poll, Op.stop]).filled.length +
      (runOps (MonitorUser.start entryOkLast pristineUser 0).1
        [Op.deliver updA, Op.poll, Op.stop]).inuse.length = 4 :=
  C1_pool_invariant entryOkLast pristineUser 0 rfl rfl rfl rfl
    [Op.deliver updA, Op.poll, Op.stop]

theorem fifoInv_stepT (t : Trace) (op : Op) (h : FifoInv t) :
    FifoInv (stepT t op) := by
  cases op with
  | deliver upd =>
    by_cases hacc : t.u.running && !t.u.empty.isEmpty
    · rcases he : t.u.empty with _ | ⟨elem, rest⟩
      · rw [he] at hacc; simp at hacc
      · have hrun : t.u.running = true := by
          have hcopy := hacc
          simp only [Bool.and_eq_true] at hcopy
          exact hcopy.1
        simp only [FifoInv, stepT, MonitorUser.deliver, he, hrun, hacc] at h ⊢
        simp [payloadOf, ← h]
    · have : (MonitorUser.deliver upd t.u).1.filled = t.u.filled := by
        rcases he : t.u.empty with _ | ⟨elem, rest⟩
        · simp [MonitorUser.deliver, he]
        · have hrun : t.u.running = false := by
            rw [he] at hacc
            simp at hacc
            exact hacc
          simp [MonitorUser.deliver, he, hrun]
      simp only [FifoInv, stepT, hacc, if_neg, Bool.false_eq_true] at h ⊢
      rw [this]
      exact h
  | poll =>
    rcases hf : t.u.filled with _ | ⟨ret, rest⟩
    · simp only [FifoInv, stepT, MonitorUser.poll, hf] at h ⊢
      exact h
    · simp only [FifoInv, stepT, MonitorUser.poll, hf] at h ⊢
      simpa using h
  | release e =>
    have : (MonitorUser.release e t.u).1.filled = t.u.filled := by
      by_cases hmem : t.u.inuse.any (fun x => x.eid = e.eid) <;>
        simp [MonitorUser.release, hmem]
    simp only [FifoInv, stepT] at h ⊢
    rw [this]
    exact h
  | stop => exact h
  | destroy => exact h

/-- C3.  Strict FIFO delivery: over any sequence of deliveries interleaved
with poll/release (and stop/destroy), the payloads returned by `poll`
followed by the payloads still queued in `filled` are exactly the payloads
of the accepted upstream updates, in upstream production order — so `poll`
returns the accepted updates in exactly the order the upstream source
produced them, with no reordering or coalescing. -/
theorem C3_fifo_order (t : Trace) (ops : List Op) (h : FifoInv t) :
    (runT t ops).polled ++ ((runT t ops).u.filled.map payloadOf)
      = (runT t ops).accepted := by
  induction ops generalizing t with
  | nil => exact h
  | cons op rest ih => exact ih (stepT t op) (fifoInv_stepT t op h)

/-- Witness for C3: a started handle accepting two updates, polling one. -/
theorem C3_fifo_order_witness :
    (runT ⟨(MonitorUser.start entryOkNoLast pristineUser 0).1, [], []⟩
        [Op.deliver updA, Op.deliver updB, Op.poll]).polled ++
      (((runT ⟨(MonitorUser.start entryOkNoLast pristineUser 0).1, [], []⟩
        [Op.deliver updA, Op.deliver updB, Op.poll]).u.filled.map payloadOf))
      = (runT ⟨(MonitorUser.start entryOkNoLast pristineUser 0).1, [], []⟩
        [Op.deliver updA, Op.deliver updB, Op.poll]).accepted :=
  C3_fifo_order ⟨(MonitorUser.start entryOkNoLast pristineUser 0).1, [], []⟩
    [Op.deliver updA, Op.deliver updB, Op.poll] (by unfold FifoInv; decide)

/-- Effect of an uninterrupted run of delivery steps on a running handle:
updates drain the free queue from the front and append to the filled queue
in order; once the free queue is exhausted every further update only bumps
the drop counter. -/
theorem runOps_deliver_spec (ups : List MonitorElement) (u : MonitorUser)
    (hrun : u.running = true) :
    (runOps u (ups.map Op.deliver)).empty = u.empty.drop ups.length ∧
    (runOps u (ups.map Op.deliver)).filled.map payloadOf
      = u.filled.map payloadOf ++ (ups.take u.empty.length).map payloadOf ∧
    (runOps u (ups.map Op.deliver)).inuse = u.inuse ∧
    (runOps u (ups.map Op.deliver)).ndropped
      = u.ndropped + (ups.length - u.empty.length) ∧
    (runOps u (ups.map Op.deliver)).running = true := by
  induction ups generalizing u with
  | nil => simp [runOps, hrun]
  | cons up rest ih =>
    have hfold : runOps u ((up :: rest).map Op.deliver)
        = runOps (MonitorUser.deliver up u).1 (rest.map Op.deliver) := rfl
    rcases he : u.empty with _ | ⟨elem, restE⟩
    · have hstep : (MonitorUser.deliver up u).1
          = { u with ndropped := u.ndropped + 1 } := by
        simp [MonitorUser.deliver, he]
      have ihu := ih { u with ndropped := u.ndropped + 1 } hrun
      rw [hfold, hstep]
      refine ⟨?_, ?_, ?_, ?_, ?_⟩
      · rw [ihu.1]; simp [he]
      · rw [ihu.2.1]; simp [he]
      · exact ihu.2.2.1
      · rw [ihu.2.2.2.1]; simp [he]; omega
      · exact ihu.2.2.2.2
    · have hstep : (MonitorUser.deliver up u).1
          = { u with
                empty := restE
                filled := u.filled ++
                  [{ elem with
                      pvStructurePtr := up.pvStructurePtr
                      overrunBitSet := up.overrunBitSet
                      changedBitSet := up.changedBitSet }]
                nevents := u.nevents + 1
                nwakeups := if u.filled.isEmpty then u.nwakeups + 1
                            else u.nwakeups } := by
        simp [MonitorUser.deliver, he, hrun]
      have ihu := ih ((MonitorUser.deliver up u).1) (by rw [hstep]; exact hrun)
      rw [hfold]
      refine ⟨?_, ?_, ?_, ?_, ?_⟩
      · rw [ihu.1, hstep]; simp [he]
      · rw [ihu.2.1, hstep]; simp [he, payloadOf]
      · rw [ihu.2.2.1, hstep]
      · rw [ihu.2.2.2.1, hstep]; simp [he]
      · exact ihu.2.2.2.2

/-- C4.  Backpressure by dropping: starting from a running handle whose free
pool holds N buffers and whose filled queue is empty, an uninterrupted
sequence of deliveries places the first N update payloads in the filled
queue in order and drops every update beyond N; after the run the drop
counter has increased by exactly (number of updates − N), the in-use set is
untouched, and a single drop step changes nothing but the drop counter and
sends no wakeup. -/
theorem C4_drop_beyond_pool (u : MonitorUser) (ups : List MonitorElement)
    (hrun : u.running = true) (hfilled : u.filled = []) :
    (runOps u (ups.map Op.deliver)).filled.map payloadOf
      = (ups.take u.empty.length).map payloadOf ∧
    (runOps u (ups.map Op.deliver)).empty = u.empty.drop ups.length ∧
    (runOps u (ups.map Op.deliver)).inuse = u.inuse ∧
    (runOps u (ups.map Op.deliver)).ndropped
      = u.ndropped + (ups.length - u.empty.length) ∧
    (∀ (v : MonitorUser) (up : MonitorElement), v.empty = [] →
      (MonitorUser.deliver up v).1 = { v with ndropped := v.ndropped + 1 } ∧
      (MonitorUser.deliver up v).2 = false) := by
  have h := runOps_deliver_spec ups u hrun
  refine ⟨?_, h.1, h.2.2.1, h.2.2.2.1, ?_⟩
  · rw [h.2.1, hfilled]; simp
  · intro v up hv
    constructor <;> simp [MonitorUser.deliver, hv]

/-- Witness for C4: a freshly started handle (4 free buffers) receiving six
updates drops exactly two. -/
theorem C4_drop_beyond_pool_witness :
    ((MonitorUser.start entryOkNoLast pristineUser 0).1.running = true ∧
     (MonitorUser.start entryOkNoLast pristineUser 0).1.filled = []) ∧
    ((runOps (MonitorUser.start entryOkNoLast pristineUser 0).1
        (sixUpdates.map Op.deliver)).filled.map payloadOf
      = (sixUpdates.take
          (MonitorUser.start entryOkNoLast pristineUser 0).1.empty.length).map
            payloadOf ∧
     (runOps (MonitorUser.start entryOkNoLast pristineUser 0).1
        (sixUpdates.map Op.deliver)).empty
      = (MonitorUser.start entryOkNoLast pristineUser 0).1.empty.drop
          sixUpdates.length ∧
     (runOps (MonitorUser.start entryOkNoLast pristineUser 0).1
        (sixUpdates.map Op.deliver)).inuse
      = (MonitorUser.start entryOkNoLast pristineUser 0).1.inuse ∧
     (runOps (MonitorUser.start entryOkNoLast pristineUser 0).1
        (sixUpdates.map Op.deliver)).ndropped
      = (MonitorUser.start entryOkNoLast pristineUser 0).1.ndropped +
          (sixUpdates.length -
            (MonitorUser.start entryOkNoLast pristineUser 0).1.empty.length) ∧
     (∀ (v : MonitorUser) (up : MonitorElement), v.empty = [] →
        (MonitorUser.deliver up v).1 = { v with ndropped := v.ndropped + 1 } ∧
        (MonitorUser.deliver up v).2 = false)) :=
  ⟨⟨rfl, rfl⟩,
   C4_drop_beyond_pool (MonitorUser.start entryOkNoLast pristineUser 0).1
     sixUpdates rfl rfl⟩

/-- The delivery step's `notify` flag is set iff the handle accepted the
update (running, with a free buffer) and its filled queue was empty
immediately before the push. -/
theorem deliver_notify_iff (upd : MonitorElement) (u : MonitorUser) :
    (MonitorUser.deliver upd u).2 = true ↔
      u.running = true ∧ u.empty ≠ [] ∧ u.filled = [] := by
  rcases he : u.empty with _ | ⟨elem, rest⟩
  · simp [MonitorUser.deliver, he]
  · by_cases hr : u.running
    · simp [MonitorUser.deliver, he, hr, List.isEmpty_iff]
    · simp [MonitorUser.deliver, he, hr]

/-- C5.  Edge-triggered wakeups: at any point of an operation sequence, a
wakeup fires iff that operation is a delivery that is accepted while the
filled queue is empty — so deliveries onto a non-empty filled queue send no
wakeup, and between any two wakeups there is an instant at which the filled
queue is empty (hence at most one wakeup between consecutive empty
instants). -/
theorem C5_wakeup_edge (u0 : MonitorUser) (ops : List Op) (i : Nat)
    (hi : i < ops.length) :
    (firesWakeup (runOps u0 (ops.take i)) (ops.get ⟨i, hi⟩) = true ↔
      (∃ upd, ops.get ⟨i, hi⟩ = Op.deliver upd) ∧
      (runOps u0 (ops.take i)).running = true ∧
      (runOps u0 (ops.take i)).empty ≠ [] ∧
      (runOps u0 (ops.take i)).filled = []) ∧
    (∀ (j : Nat) (hj : j < ops.length), i < j →
      firesWakeup (runOps u0 (ops.take i)) (ops.get ⟨i, hi⟩) = true →
      firesWakeup (runOps u0 (ops.take j)) (ops.get ⟨j, hj⟩) = true →
      ∃ k, i < k ∧ k ≤ j ∧ (runOps u0 (ops.take k)).filled = []) := by
  have hiff : ∀ (m : Nat) (hm : m < ops.length),
      firesWakeup (runOps u0 (ops.take m)) (ops.get ⟨m, hm⟩) = true ↔
        ((∃ upd, ops.get ⟨m, hm⟩ = Op.deliver upd) ∧
         (runOps u0 (ops.take m)).running = true ∧
         (runOps u0 (ops.take m)).empty ≠ [] ∧
         (runOps u0 (ops.take m)).filled = []) := by
    intro m hm
    rcases hop : ops.get ⟨m, hm⟩ with upd | _ | e | _ | _ <;>
      simp [firesWakeup, hop, deliver_notify_iff]
  refine ⟨hiff i hi, ?_⟩
  intro j hj hij _ wj
  rcases (hiff j hj).1 wj with ⟨_, _, _, hfill⟩
  exact ⟨j, hij, le_refl j, hfill⟩

/-- Witness for C5 on a concrete run: the first delivery onto the freshly
started (empty-filled) handle fires a wakeup; the second does not. -/
theorem C5_wakeup_edge_witness :
    (0 < ([Op.deliver updA, Op.deliver updB] : List Op).length) ∧
    ((firesWakeup
        (runOps (MonitorUser.start entryOkNoLast pristineUser 0).1
          (([Op.deliver updA, Op.deliver updB] : List Op).take 0))
        (([Op.deliver updA, Op.deliver updB] : List Op).get ⟨0, by decide⟩)
        = true ↔
      (∃ upd, ([Op.deliver updA, Op.deliver updB] : List Op).get ⟨0, by decide⟩
          = Op.deliver upd) ∧
      (runOps (MonitorUser.start entryOkNoLast pristineUser 0).1
        (([Op.deliver updA, Op.deliver updB] : List Op).take 0)).running = true ∧
      (runOps (MonitorUser.start entryOkNoLast pristineUser 0).1
        (([Op.deliver updA, Op.deliver updB] : List Op).take 0)).empty ≠ [] ∧
      (runOps (MonitorUser.start entryOkNoLast pristineUser 0).1
        (([Op.deliver updA, Op.deliver updB] : List Op).take 0)).filled = []) ∧
    (∀ (j : Nat) (hj : j < ([Op.deliver updA, Op.deliver updB] : List Op).length),
      0 < j →
      firesWakeup
        (runOps (MonitorUser.start entryOkNoLast pristineUser 0).1
          (([Op.deliver updA, Op.deliver updB] : List Op).take 0))
        (([Op.deliver updA, Op.deliver updB] : List Op).get ⟨0, by decide⟩) = true →
      firesWakeup
        (runOps (MonitorUser.start entryOkNoLast pristineUser 0).1
          (([Op.deliver updA, Op.deliver updB] : List Op).take j))
        (([Op.deliver updA, Op.deliver updB] : List Op).get ⟨j, hj⟩) = true →
      ∃ k, 0 < k ∧ k ≤ j ∧
        (runOps (MonitorUser.start entryOkNoLast pristineUser 0).1
          (([Op.deliver updA, Op.deliver updB] : List Op).take k)).filled = [])) :=
  ⟨by decide,
   C5_wakeup_edge (MonitorUser.start entryOkNoLast pristineUser 0).1
     [Op.deliver updA, Op.deliver updB] 0 (by decide)⟩

/-- Counterexample to C2 as stated.  Fan one concrete update out to two
freshly started handles: afterwards both handles' filled buffers and the
entry's last-value snapshot all hold the very same payload structure
identity as the upstream update (77) — `monitorEvent` assigns the
`pvStructurePtr` shared pointer instead of copying the payload by value, so
a single payload instance is aliased across distinct handles and the
last-value snapshot. -/
theorem C2_counterexample :
    ((processUpdate
        ⟨entryOkNoLast,
         [(MonitorUser.start entryOkNoLast pristineUser 0).1,
          (MonitorUser.start entryOkNoLast pristineUser 10).1]⟩ updA).users.map
      (fun u => u.filled.map MonitorElement.pvStructurePtr))
      = [[some 77], [some 77]] ∧
    (processUpdate
        ⟨entryOkNoLast,
         [(MonitorUser.start entryOkNoLast pristineUser 0).1,
          (MonitorUser.start entryOkNoLast pristineUser 10).1]⟩ updA).entry.lastval
      = some 77 ∧
    updA.pvStructurePtr = some 77 := by decide

/-- C2 (amended).  The per-handle `MonitorElement` buffer instances are
never shared: fan-out only mutates each handle's own pool, whose element
identities are preserved (so handles with disjoint pools stay disjoint).
The payload, however, crosses the fan-out boundary by reference, not by
copy: an accepting handle's newly filled buffer references the same payload
structure instance as the upstream update, which is also the entry's new
last-value snapshot; and `start()` seeds its initial element with a
reference to (not a copy of) the entry's last value. -/
theorem C2_buffer_ownership_payload_aliasing (s : EntryState)
    (upd : MonitorElement) (i : Nat) (uu : MonitorUser)
    (hu : s.users[i]? = some uu)
    (hrun : uu.running = true) (hfree : uu.empty ≠ [])
    (e : MonitorCacheEntry) (v : MonitorUser) (base lv : Nat)
    (halive : v.reqAlive = true) (hsr : e.startresult.isSuccess = true)
    (hlv : e.lastval = some lv) :
    (∃ uu', (processUpdate s upd).users[i]? = some uu' ∧
      List.Perm (poolIds uu') (poolIds uu) ∧
      ∃ elem', uu'.filled = uu.filled ++ [elem'] ∧
        elem'.pvStructurePtr = upd.pvStructurePtr) ∧
    (processUpdate s upd).entry.lastval = upd.pvStructurePtr ∧
    (∃ elem0, (MonitorUser.start e v base).1.filled = v.filled ++ [elem0] ∧
      elem0.pvStructurePtr = e.lastval) := by
  refine ⟨?_, ?_, ?_⟩
  · refine ⟨(MonitorUser.deliver upd uu).1, ?_, poolIds_deliver upd uu, ?_⟩
    · simp [processUpdate, hu]
    · rcases he : uu.empty with _ | ⟨elem, rest⟩
      · exact absurd he hfree
      · refine ⟨{ elem with
            pvStructurePtr := upd.pvStructurePtr
            overrunBitSet := upd.overrunBitSet
            changedBitSet := upd.changedBitSet }, ?_, rfl⟩
        simp [MonitorUser.deliver, he, hrun]
  · simp [processUpdate]
  · rw [hlv]
    refine ⟨{ MonitorUser.freshElem base with
        pvStructurePtr := some lv
        changedBitSet := (MonitorUser.freshElem base).changedBitSet ||| 1 }, ?_, rfl⟩
    simp [MonitorUser.start, halive, hsr, hlv]

/-- Witness for the amended C2 at a concrete state, update and entry. -/
theorem C2_buffer_ownership_payload_aliasing_witness :
    (∃ uu', (processUpdate demoState updA).users[0]? = some uu' ∧
      List.Perm (poolIds uu') (poolIds demoUser1) ∧
      ∃ elem', uu'.filled = demoUser1.filled ++ [elem'] ∧
        elem'.pvStructurePtr = updA.pvStructurePtr) ∧
    (processUpdate demoState updA).entry.lastval = updA.pvStructurePtr ∧
    (∃ elem0, (MonitorUser.start entryOkLast pristineUser 20).1.filled
        = pristineUser.filled ++ [elem0] ∧
      elem0.pvStructurePtr = entryOkLast.lastval) :=
  C2_buffer_ownership_payload_aliasing demoState updA 0 demoUser1 rfl rfl
    (by decide) entryOkLast pristineUser 20 42 rfl rfl rfl

/-- Under the pool invariant, the in-use set holds no duplicate element
identities. -/
theorem inuse_ids_nodup (u : MonitorUser) (hnd : (poolIds u).Nodup) :
    (u.inuse.map MonitorElement.eid).Nodup := by
  have hs : List.Sublist (u.inuse.map MonitorElement.eid) (poolIds u) := by
    rw [poolIds, pool, List.map_append, List.map_append]
    exact List.sublist_append_right _ _
  exact List.Nodup.sublist hs hnd

/-- C6.  `release` of an element not in the in-use set throws the distinct
invalid-argument ("Can't release MonitorElement not in use") condition and
leaves the handle completely unchanged; `release` of an in-use element
removes exactly that element from the in-use set (no element with its
identity remains) and appends it to the back of the free queue. -/
theorem C6_release_unexpected_element (u : MonitorUser) (e : MonitorElement)
    (hnd : (poolIds u).Nodup) :
    ((MonitorUser.release e u).2 = false ↔ ∀ x ∈ u.inuse, x.eid ≠ e.eid) ∧
    ((MonitorUser.release e u).2 = false → (MonitorUser.release e u).1 = u) ∧
    ((MonitorUser.release e u).2 = true →
      (MonitorUser.release e u).1.empty = u.empty ++ [e] ∧
      (MonitorUser.release e u).1.filled = u.filled ∧
      (∀ x ∈ (MonitorUser.release e u).1.inuse, x ∈ u.inuse) ∧
      (∀ x ∈ (MonitorUser.release e u).1.inuse, x.eid ≠ e.eid) ∧
      (MonitorUser.release e u).1.inuse.length + 1 = u.inuse.length) := by
  by_cases hmem : u.inuse.any (fun x => x.eid = e.eid)
  · rcases List.any_eq_true.1 hmem with ⟨x, hx, hpx⟩
    have hpx' : x.eid = e.eid := by simpa using hpx
    have hndI := inuse_ids_nodup u hnd
    rcases List.exists_of_eraseP (p := fun x => decide (x.eid = e.eid)) hx hpx
      with ⟨x', l₁, l₂, hnl, hpx'', hdecomp, herase⟩
    have hx'e : x'.eid = e.eid := by simpa using hpx''
    refine ⟨⟨?_, ?_⟩, ?_, ?_⟩
    · intro hfalse
      simp [MonitorUser.release, hmem] at hfalse
    · intro hall
      exact absurd hpx' (hall x hx)
    · intro hfalse
      simp [MonitorUser.release, hmem] at hfalse
    · intro _
      refine ⟨by simp [MonitorUser.release, hmem], by simp [MonitorUser.release, hmem],
        ?_, ?_, ?_⟩
      · intro y hy
        simp only [MonitorUser.release, hmem, if_pos] at hy
        exact (List.eraseP_sublist _).subset hy
      · intro y hy
        simp only [MonitorUser.release, hmem, if_pos] at hy
        rw [herase] at hy
        rw [hdecomp, List.map_append] at hndI
        rcases List.mem_append.1 hy with hy1 | hy2
        · intro hc
          have := hnl y hy1
          simp [hc] at this
        · intro hc
          have hmemx : x'.eid ∈ (x' :: l₂).map MonitorElement.eid := by simp
          rcases List.nodup_append.1 hndI with ⟨_, hnd2, hdisj⟩
          have : x'.eid ∉ l₂.map MonitorElement.eid := by
            simp only [List.map_cons, List.nodup_cons] at hnd2
            exact hnd2.1
          exact this (List.mem_map.2 ⟨y, hy2, by rw [hc, hx'e]⟩)
      · simp only [MonitorUser.release, hmem, if_pos]
        rw [herase, hdecomp]
        simp
        omega
  · have hmem' : u.inuse.any (fun x => x.eid = e.eid) = false :=
      Bool.not_eq_true _ ▸ eq_false_of_ne_true hmem
    refine ⟨⟨?_, ?_⟩, ?_, ?_⟩
    · intro _
      intro y hy hc
      rw [List.any_eq_false] at hmem'
      exact hmem' y hy (by simpa using hc)
    · intro _
      simp [MonitorUser.release, hmem]
    · intro _
      simp [MonitorUser.release, hmem]
    · intro htrue
      simp [MonitorUser.release, hmem] at htrue

/-- Witness for C6 at a concrete handle releasing its lent-out buffer. -/
theorem C6_release_unexpected_element_witness :
    ((MonitorUser.release (MonitorUser.freshElem 3) userWithInuse).2 = false ↔
      ∀ x ∈ userWithInuse.inuse, x.eid ≠ (MonitorUser.freshElem 3).eid) ∧
    ((MonitorUser.release (MonitorUser.freshElem 3) userWithInuse).2 = false →
      (MonitorUser.release (MonitorUser.freshElem 3) userWithInuse).1 = userWithInuse) ∧
    ((MonitorUser.release (MonitorUser.freshElem 3) userWithInuse).2 = true →
      (MonitorUser.release (MonitorUser.freshElem 3) userWithInuse).1.empty
        = userWithInuse.empty ++ [MonitorUser.freshElem 3] ∧
      (MonitorUser.release (MonitorUser.freshElem 3) userWithInuse).1.filled
        = userWithInuse.filled ∧
      (∀ x ∈ (MonitorUser.release (MonitorUser.freshElem 3) userWithInuse).1.inuse,
        x ∈ userWithInuse.inuse) ∧
      (∀ x ∈ (MonitorUser.release (MonitorUser.freshElem 3) userWithInuse).1.inuse,
        x.eid ≠ (MonitorUser.freshElem 3).eid) ∧
      (MonitorUser.release (MonitorUser.freshElem 3) userWithInuse).1.inuse.length + 1
        = userWithInuse.inuse.length) :=
  C6_release_unexpected_element userWithInuse (MonitorUser.freshElem 3) (by decide)

/-- Counterexample to C7 as stated.  In the `monitorEvent` fan-out the
requester reference is locked but never checked: a handle whose requester is
dead still receives the update into its filled queue (a delivery IS
attempted), and because its filled queue was empty the `notify` flag is set,
so `req->monitorEvent` is invoked on the dead requester — contradicting
"no delivery is attempted for it and no callback is invoked on the dead
requester". -/
theorem C7_counterexample :
    deadRunningUser.reqAlive = false ∧
    (MonitorUser.deliver updA deadRunningUser).1.filled.length = 1 ∧
    (MonitorUser.deliver updA deadRunningUser).2 = true := by decide

/-- C7 (amended).  In the `monitorConnect` fan-out a dead requester is
skipped (it receives no callback) while every live handle receives exactly
the stored outcome, and the loop processes every handle (non-fatal).  In the
`monitorEvent` fan-out, by contrast, requester liveness is not checked: a
dead but running handle with a free buffer still receives the delivery, and
the wakeup is attempted (on the dead requester) exactly on the
empty-to-non-empty edge. -/
theorem C7_dead_requester_fanout (users : List MonitorUser) (result : Status)
    (i : Nat) (v : MonitorUser) (hv : users[i]? = some v)
    (u : MonitorUser) (upd : MonitorElement)
    (hdead : u.reqAlive = false) (hrun : u.running = true)
    (hfree : u.empty ≠ []) :
    (MonitorCacheEntry.connectNotifications users result).length = users.length ∧
    (MonitorCacheEntry.connectNotifications users result)[i]?
      = some (if v.reqAlive then some result else none) ∧
    (MonitorUser.deliver upd u).1.filled.length = u.filled.length + 1 ∧
    ((MonitorUser.deliver upd u).2 = true ↔ u.filled = []) := by
  refine ⟨by simp [MonitorCacheEntry.connectNotifications], ?_, ?_, ?_⟩
  · simp [MonitorCacheEntry.connectNotifications, hv]
  · rcases he : u.empty with _ | ⟨elem, rest⟩
    · exact absurd he hfree
    · simp [MonitorUser.deliver, he, hrun]
  · rw [deliver_notify_iff]
    simp [hrun, hfree]

/-- Witness for the amended C7 at a concrete user list and dead handle. -/
theorem C7_dead_requester_fanout_witness :
    (MonitorCacheEntry.connectNotifications [deadRunningUser, demoUser1]
        Status.ok).length = ([deadRunningUser, demoUser1] : List MonitorUser).length ∧
    (MonitorCacheEntry.connectNotifications [deadRunningUser, demoUser1]
        Status.ok)[0]?
      = some (if deadRunningUser.reqAlive then some Status.ok else none) ∧
    (MonitorUser.deliver updA deadRunningUser).1.filled.length
      = deadRunningUser.filled.length + 1 ∧
    ((MonitorUser.deliver updA deadRunningUser).2 = true ↔
      deadRunningUser.filled = []) :=
  C7_dead_requester_fanout [deadRunningUser, demoUser1] Status.ok 0
    deadRunningUser rfl deadRunningUser updA rfl rfl (by decide)

/-- Counterexample to C8 as stated.  On a successfully connected entry that
already holds a last value, a second `start()` does not leave the handle in
the state the first `start()` produced: it enqueues a second initial update
(filled queue grows from 1 to 2 elements) and the total buffer pool grows
from 4 to 5. -/
theorem C8_counterexample :
    (MonitorUser.start entryOkLast pristineUser 0).1.filled.length = 1 ∧
    (MonitorUser.start entryOkLast
        (MonitorUser.start entryOkLast pristineUser 0).1 10).1.filled.length = 2 ∧
    (pool (MonitorUser.start entryOkLast pristineUser 0).1).length = 4 ∧
    (pool (MonitorUser.start entryOkLast
        (MonitorUser.start entryOkLast pristineUser 0).1 10).1).length = 5 := by
  decide

/-- C8 (amended).  `start()` is idempotent only while the entry has no last
value: a second `start()` then reproduces the first one's running flag,
filled-queue contents, free-pool size, in-use set and returned outcome (the
free buffers themselves are re-allocated afresh).  As soon as the entry
holds a last value, every `start()` appends one more initial update to the
filled queue. -/
theorem C8_start_idempotent_without_lastval (e : MonitorCacheEntry)
    (u : MonitorUser) (base base' : Nat) (halive : u.reqAlive = true)
    (hsr : e.startresult.isSuccess = true) (hnl : e.lastval = none)
    (e' : MonitorCacheEntry) (v : MonitorUser) (lv : Nat)
    (halive' : v.reqAlive = true) (hsr' : e'.startresult.isSuccess = true)
    (hlv : e'.lastval = some lv) :
    ((MonitorUser.start e (MonitorUser.start e u base).1 base').1.running
       = (MonitorUser.start e u base).1.running ∧
     (MonitorUser.start e (MonitorUser.start e u base).1 base').1.filled
       = (MonitorUser.start e u base).1.filled ∧
     (MonitorUser.start e (MonitorUser.start e u base).1 base').1.empty.length
       = (MonitorUser.start e u base).1.empty.length ∧
     (MonitorUser.start e (MonitorUser.start e u base).1 base').1.inuse
       = (MonitorUser.start e u base).1.inuse ∧
     (MonitorUser.start e (MonitorUser.start e u base).1 base').2
       = (MonitorUser.start e u base).2) ∧
    (MonitorUser.start e' v base).1.filled.length = v.filled.length + 1 := by
  constructor
  · simp [MonitorUser.start, halive, hsr, hnl]
  · simp [MonitorUser.start, halive', hsr', hlv]

/-- Witness for the amended C8 at a concrete entry and handle. -/
theorem C8_start_idempotent_without_lastval_witness :
    ((MonitorUser.start entryOkNoLast
        (MonitorUser.start entryOkNoLast pristineUser 0).1 10).1.running
       = (MonitorUser.start entryOkNoLast pristineUser 0).1.running ∧
     (MonitorUser.start entryOkNoLast
        (MonitorUser.start entryOkNoLast pristineUser 0).1 10).1.filled
       = (MonitorUser.start entryOkNoLast pristineUser 0).1.filled ∧
     (MonitorUser.start entryOkNoLast
        (MonitorUser.start entryOkNoLast pristineUser 0).1 10).1.empty.length
       = (MonitorUser.start entryOkNoLast pristineUser 0).1.empty.length ∧
     (MonitorUser.start entryOkNoLast
        (MonitorUser.start entryOkNoLast pristineUser 0).1 10).1.inuse
       = (MonitorUser.start entryOkNoLast pristineUser 0).1.inuse ∧
     (MonitorUser.start entryOkNoLast
        (MonitorUser.start entryOkNoLast pristineUser 0).1 10).2
       = (MonitorUser.start entryOkNoLast pristineUser 0).2) ∧
    (MonitorUser.start entryOkLast pristineUser 0).1.filled.length
      = pristineUser.filled.length + 1 :=
  C8_start_idempotent_without_lastval entryOkNoLast pristineUser 0 10 rfl rfl rfl
    entryOkLast pristineUser 42 rfl rfl rfl

/-- C9.  `monitorConnect` stores the data-shape descriptor unconditionally;
on a success status it stores the upstream `monitor->start()` outcome (which
may itself be a failure), otherwise it stores the given failure status
directly; and a stored non-success outcome is returned unchanged by every
handle's `start()` call, which then leaves the handle untouched (no buffers
allocated). -/
theorem C9_monitorConnect_outcome (e : MonitorCacheEntry)
    (status upstreamStart : Status) (sid : Nat) (base : Nat) :
    (MonitorCacheEntry.monitorConnect status upstreamStart sid e).typedesc
      = some sid ∧
    (status.isSuccess = true →
      (MonitorCacheEntry.monitorConnect status upstreamStart sid e).startresult
        = upstreamStart) ∧
    (status.isSuccess = false →
      (MonitorCacheEntry.monitorConnect status upstreamStart sid e).startresult
        = status) ∧
    (∀ (v : MonitorUser), v.reqAlive = true →
      (MonitorCacheEntry.monitorConnect status upstreamStart sid
        e).startresult.isSuccess = false →
      MonitorUser.start (MonitorCacheEntry.monitorConnect status upstreamStart
          sid e) v base
        = (v, (MonitorCacheEntry.monitorConnect status upstreamStart sid
            e).startresult, false)) := by
  refine ⟨rfl, ?_, ?_, ?_⟩
  · intro hs
    simp [MonitorCacheEntry.monitorConnect, hs]
  · intro hs
    simp [MonitorCacheEntry.monitorConnect, hs]
  · intro v halive hfail
    simp [MonitorUser.start, halive, hfail]

/-- Witness for C9: a failed connect stores the failure and every `start()`
returns it without touching the handle. -/
theorem C9_monitorConnect_outcome_witness :
    (MonitorCacheEntry.monitorConnect errConn Status.ok 7 entryOkNoLast).typedesc
      = some 7 ∧
    (MonitorCacheEntry.monitorConnect errConn Status.ok 7 entryOkNoLast).startresult
      = errConn ∧
    MonitorUser.start
        (MonitorCacheEntry.monitorConnect errConn Status.ok 7 entryOkNoLast)
        pristineUser 0
      = (pristineUser,
         (MonitorCacheEntry.monitorConnect errConn Status.ok 7
           entryOkNoLast).startresult, false) := by
  have h := C9_monitorConnect_outcome entryOkNoLast errConn Status.ok 7 0
  exact ⟨h.1, h.2.2.1 rfl, h.2.2.2 pristineUser rfl (by decide)⟩

/-- The entry evolution of one drain-loop iteration: only `lastval` and the
event counter change. -/
theorem processUpdate_entry (s : EntryState) (upd : MonitorElement) :
    (processUpdate s upd).entry
      = { s.entry with lastval := upd.pvStructurePtr
                       nevents := s.entry.nevents + 1 } := rfl

/-- The entry after draining depends only on the starting entry and the
update sequence, never on the attached users. -/
theorem drain_entry (updates : List MonitorElement) :
    ∀ (s : EntryState),
      (updates.foldl processUpdate s).entry
        = updates.foldl
            (fun e upd => { e with lastval := upd.pvStructurePtr
                                   nevents := e.nevents + 1 })
            s.entry := by
  induction updates with
  | nil => intro s; rfl
  | cons up rest ih =>
    intro s
    rw [List.foldl_cons, ih, List.foldl_cons]
    rfl

/-- After draining, `lastval` is the payload of the last processed update
(or unchanged when there was none). -/
theorem drain_lastval (updates : List MonitorElement) :
    ∀ (s : EntryState),
      (updates.foldl processUpdate s).entry.lastval
        = (updates.getLast?.map MonitorElement.pvStructurePtr).getD
            s.entry.lastval := by
  induction updates with
  | nil => intro s; simp
  | cons up rest ih =>
    intro s
    rw [List.foldl_cons, ih]
    rcases hr : rest with _ | ⟨r2, rest2⟩
    · subst hr
      simp [processUpdate]
    · have hsome : (r2 :: rest2).getLast?.isSome := by
        rw [List.getLast?_isSome]
        simp
      rcases Option.isSome_iff_exists.1 hsome with ⟨l, hl⟩
      simp [List.getLast?_cons_cons, hl]

/-- Draining does not touch the cached connection outcome. -/
theorem drain_startresult (updates : List MonitorElement) :
    ∀ (s : EntryState),
      (updates.foldl processUpdate s).entry.startresult
        = s.entry.startresult := by
  induction updates with
  | nil => intro s; rfl
  | cons up rest ih =>
    intro s
    rw [List.foldl_cons, ih]
    rfl

/-- C10.  After `monitorEvent` the entry's last-value snapshot is the
payload of the most recent update pulled from the upstream monitor,
independently of the attached handles (the entry evolves the same even if
every handle dropped the update); and a handle that calls `start()`
afterwards is seeded with exactly that newest upstream payload. -/
theorem C10_lastval_snapshot (s : EntryState) (updates : List MonitorElement)
    (hne : updates ≠ []) (other : List MonitorUser)
    (v : MonitorUser) (base lv : Nat) (halive : v.reqAlive = true)
    (hp : (updates.getLast hne).pvStructurePtr = some lv)
    (hsr : s.entry.startresult.isSuccess = true) :
    (monitorEvent s updates).entry.lastval
      = (updates.getLast hne).pvStructurePtr ∧
    (monitorEvent ⟨s.entry, other⟩ updates).entry = (monitorEvent s updates).entry ∧
    (∃ elem0,
      (MonitorUser.start (monitorEvent s updates).entry v base).1.filled
        = v.filled ++ [elem0] ∧
      elem0.pvStructurePtr = (updates.getLast hne).pvStructurePtr) := by
  have hlast : (monitorEvent s updates).entry.lastval
      = (updates.getLast hne).pvStructurePtr := by
    rw [monitorEvent, drain_lastval]
    rw [List.getLast?_eq_getLast _ hne]
    rfl
  have hind : (monitorEvent ⟨s.entry, other⟩ updates).entry
      = (monitorEvent s updates).entry := by
    rw [monitorEvent, monitorEvent, drain_entry, drain_entry]
  have hsr' : (monitorEvent s updates).entry.startresult.isSuccess = true := by
    rw [monitorEvent, drain_startresult]
    exact hsr
  have hlv : (monitorEvent s updates).entry.lastval = some lv := by
    rw [hlast, hp]
  refine ⟨hlast, hind, ?_⟩
  refine ⟨{ MonitorUser.freshElem base with
      pvStructurePtr := some lv
      changedBitSet := (MonitorUser.freshElem base).changedBitSet ||| 1 },
    ?_, by rw [hp]⟩
  simp [MonitorUser.start, halive, hsr', hlv]

/-- Witness for C10: two concrete updates drained into a concrete entry
state, then a fresh handle starts. -/
theorem C10_lastval_snapshot_witness :
    (monitorEvent demoState [updA, updB]).entry.lastval
      = (([updA, updB] : List MonitorElement).getLast (by decide)).pvStructurePtr ∧
    (monitorEvent ⟨demoState.entry, []⟩ [updA, updB]).entry
      = (monitorEvent demoState [updA, updB]).entry ∧
    (∃ elem0,
      (MonitorUser.start (monitorEvent demoState [updA, updB]).entry
        pristineUser 50).1.filled
        = pristineUser.filled ++ [elem0] ∧
      elem0.pvStructurePtr
        = (([updA, updB] : List MonitorElement).getLast (by decide)).pvStructurePtr) :=
  C10_lastval_snapshot demoState [updA, updB] (by decide) [] pristineUser 50 78
    rfl rfl rfl

end MonCache
